import Mathlib

/-!
Verification of the FIFO crypto tax calculator
(`calculator_crypto/logic/tax_calculator.py`).

The core functions `calcular_fifo`, `calcular_irpf_ingresos` and
`calcular_irpf_ganancias` are embedded shallowly.  Monetary amounts and
quantities (Python floats) are modelled as rationals `ℚ`; dates (Python
`datetime.date` values, already normalised by `pd.to_datetime(...).dt.date`)
are modelled as natural numbers ordered like the dates; the per-asset
`dict[str, deque]` of lots is modelled as a total function
`String → List Lote` whose default value is the empty queue (matching the
`if cripto not in colas: colas[cripto] = deque()` initialisation).
Formatted strings (the shortfall note and each `lotes_origen_info` entry)
are modelled by the data they are formatted from: the note becomes
`Option (ℚ × String)` (unmatched quantity, asset) and the lot trace a list
of `(consumed, acquisitionDate, unitCost)` triples.
-/

namespace TaxCalculator

/-- Transaction kinds: the `tipo` column values
"Compra", "Venta", "Donacion", "Ingreso". -/
inductive Tipo where
  | compra
  | venta
  | donacion
  | ingreso
  deriving DecidableEq, Repr

/-- One input row of `calcular_fifo` (columns
`fecha`, `tipo`, `cripto`, `cantidad`, `valor_eur`, `fee_eur`). -/
structure Operacion where
  fecha : Nat
  tipo : Tipo
  cripto : String
  cantidad : ℚ
  valor_eur : ℚ
  fee_eur : ℚ
  deriving DecidableEq, Repr

/-- A FIFO lot, as appended on a "Compra":
`{'cantidad_disponible': …, 'coste_unit': …, 'fecha_compra': …}`. -/
structure Lote where
  cantidad_disponible : ℚ
  coste_unit : ℚ
  fecha_compra : Nat
  deriving DecidableEq, Repr

/-- One output row appended to `ventas` for a "Venta"/"Donacion". -/
structure Venta where
  fecha_venta : Nat
  cripto : String
  tipo_operacion : Tipo
  cantidad_vendida : ℚ
  valor_transmision_bruto_eur : ℚ
  comision_venta_eur : ℚ
  valor_transmision_neto_eur : ℚ
  coste_adquisicion_total_eur : ℚ
  ganancia_perdida_eur : ℚ
  nota : Option (ℚ × String)
  lotes_origen_info : List (ℚ × Nat × ℚ)
  deriving DecidableEq, Repr

/-- The epsilon tolerance `1e-9` of the source. -/
def eps : ℚ := 1 / 1000000000

/-- Python `str.lower()` (the `str(f['cripto']).lower()` normalisation),
modelled as lowercasing each character. -/
def lower (s : String) : String := ⟨s.data.map Char.toLower⟩

/-- The `while restante > 0 and colas[cripto]:` loop of `calcular_fifo`
(lines 61–69): consume the head lot, accumulate cost and trace, pop the
lot once its remaining quantity is `≤ 1e-9`.  Returns the final
`(restante, coste_adq, lotes_info, queue)`. -/
def consumir (restante coste_adq : ℚ) (lotes_info : List (ℚ × Nat × ℚ)) :
    (cola : List Lote) → ℚ × ℚ × List (ℚ × Nat × ℚ) × List Lote
  | [] => (restante, coste_adq, lotes_info, [])
  | lote :: resto =>
    if h : 0 < restante then
      if h2 : lote.cantidad_disponible - min restante lote.cantidad_disponible ≤ eps then
        consumir (restante - min restante lote.cantidad_disponible)
          (coste_adq + min restante lote.cantidad_disponible * lote.coste_unit)
          (lotes_info ++ [(min restante lote.cantidad_disponible,
            lote.fecha_compra, lote.coste_unit)])
          resto
      else
        consumir (restante - min restante lote.cantidad_disponible)
          (coste_adq + min restante lote.cantidad_disponible * lote.coste_unit)
          (lotes_info ++ [(min restante lote.cantidad_disponible,
            lote.fecha_compra, lote.coste_unit)])
          ({ lote with cantidad_disponible :=
              lote.cantidad_disponible - min restante lote.cantidad_disponible } :: resto)
    else (restante, coste_adq, lotes_info, lote :: resto)
termination_by cola => cola.length + (if 0 < restante then 1 else 0)
decreasing_by
  · simp only [List.length_cons, if_pos h]
    split <;> omega
  · have hq : min restante lote.cantidad_disponible = restante := by
      rcases min_choice restante lote.cantidad_disponible with h3 | h3
      · exact h3
      · exfalso
        exact h2 (by rw [h3]; simp [eps])
    simp only [List.length_cons, if_pos h, hq, sub_self, lt_irrefl, if_false]
    omega

/-- Pointwise update of the queue map (assignment `colas[cripto] = …`). -/
def actualizar (colas : String → List Lote) (k : String) (q : List Lote) :
    String → List Lote :=
  fun k' => if k' = k then q else colas k'

/-- The mutable state of one `calcular_fifo` pass: the queue map `colas`
and the accumulated `ventas` list. -/
structure Estado where
  colas : String → List Lote
  ventas : List Venta

/-- Fresh state at the start of a pass: `colas = {}`, `ventas = []`. -/
def estadoInicial : Estado := ⟨fun _ => [], []⟩

/-- The body of the `for _, f in df.iterrows():` loop of `calcular_fifo`
(lines 29–90): skip malformed rows, append a lot on "Compra", consume
FIFO and emit a record on "Venta"/"Donacion", ignore "Ingreso". -/
def procesarOp (s : Estado) (f : Operacion) : Estado :=
  if f.cantidad ≤ 0 ∨ lower f.cripto = "" then s
  else
    match f.tipo with
    | Tipo.compra =>
        let nuevoLote : Lote :=
          ⟨f.cantidad,
           if f.cantidad ≠ 0 then (f.valor_eur + f.fee_eur) / f.cantidad else 0,
           f.fecha⟩
        { s with
          colas := actualizar s.colas (lower f.cripto)
                     (s.colas (lower f.cripto) ++ [nuevoLote]) }
    | Tipo.venta | Tipo.donacion =>
        let r := consumir f.cantidad 0 [] (s.colas (lower f.cripto))
        { colas := actualizar s.colas (lower f.cripto) r.2.2.2,
          ventas := s.ventas ++
            [⟨f.fecha, lower f.cripto, f.tipo, f.cantidad, f.valor_eur, f.fee_eur,
              f.valor_eur - f.fee_eur, r.2.1, f.valor_eur - f.fee_eur - r.2.1,
              if eps < r.1 then some (r.1, lower f.cripto) else none,
              r.2.2.1⟩] }
    | Tipo.ingreso => s

instance : DecidableRel (fun a b : Operacion => a.fecha ≤ b.fecha) :=
  fun a b => Nat.decLe a.fecha b.fecha

/-- The `df.sort_values('fecha')` step, modelled as a sort by date.
The source relies on the pandas default sort kind, so only the
date-sortedness of the result is the code's contract; this model uses a
concrete (stable) insertion sort to obtain a function. -/
def sortPorFecha (ops : List Operacion) : List Operacion :=
  List.insertionSort (fun a b => a.fecha ≤ b.fecha) ops

/-- `calcular_fifo` including its final internal state: sort by date,
then run the row loop from a fresh state. -/
def calcularFifoFull (ops : List Operacion) : Estado :=
  List.foldl procesarOp estadoInicial (sortPorFecha ops)

/-- `calcular_fifo`: the returned `ventas` DataFrame. -/
def calcular_fifo (ops : List Operacion) : List Venta :=
  (calcularFifoFull ops).ventas

/-- Python `round(x, 2)`: round `x` to two decimals.  (No claim depends
on the tie-breaking rule; exact halves do not occur in any claim.) -/
def round2 (x : ℚ) : ℚ := (round (x * 100) : ℤ) / 100

/-- Output of `calcular_irpf_ingresos`. -/
structure ResumenIngresos where
  total_ingresos_eur : ℚ
  irpf_ingresos_eur : ℚ
  deriving DecidableEq, Repr

/-- Output of `calcular_irpf_ganancias`. -/
structure ResumenGanancias where
  base_imponible_eur : ℚ
  irpf_ganancias_eur : ℚ
  deriving DecidableEq, Repr

/-- `calcular_irpf_ingresos` (lines 95–110), on the `valor_eur` column of
the income DataFrame: empty input yields `(0, 0)`, otherwise the sum and
`round(total * 0.19, 2)`. -/
def calcular_irpf_ingresos (valores : List ℚ) : ResumenIngresos :=
  if valores = [] then ⟨0, 0⟩
  else ⟨valores.sum, round2 (valores.sum * (19 / 100))⟩

/-- The tier table `tramos` (lines 129–134); the unbounded last width
`float('inf')` is modelled as `none` (so `min(restante, inf) = restante`). -/
def tramos : List (Option ℚ × ℚ) :=
  [(some 6000, 19 / 100),
   (some (50000 - 6000), 21 / 100),
   (some (200000 - 50000), 23 / 100),
   (none, 26 / 100)]

/-- The `for limite, tipo in tramos:` loop (lines 136–141): break once
`restante ≤ 0`, otherwise take `min(restante, limite)` at each rate. -/
def aplicarTramos : ℚ → List (Option ℚ × ℚ) → ℚ
  | _, [] => 0
  | restante, (limite, tipo) :: resto =>
    if restante ≤ 0 then 0
    else
      (match limite with
        | none => restante
        | some l => min restante l) * tipo +
        aplicarTramos
          (restante - match limite with
            | none => restante
            | some l => min restante l)
          resto

/-- `calcular_irpf_ganancias` (lines 113–146), on the list of disposal
records: sum `ganancia_perdida_eur`, apply the tiers, round both outputs. -/
def calcular_irpf_ganancias (registros : List Venta) : ResumenGanancias :=
  ⟨round2 ((registros.map (·.ganancia_perdida_eur)).sum),
   round2 (aplicarTramos ((registros.map (·.ganancia_perdida_eur)).sum) tramos)⟩

/-- Total remaining quantity of a queue (specification measure, used to
state the shortfall condition). -/
def totalDisponible (cola : List Lote) : ℚ :=
  (cola.map (·.cantidad_disponible)).sum

/-- Total acquisition cost of all lots of a queue (specification measure). -/
def costeTotal (cola : List Lote) : ℚ :=
  (cola.map (fun l => l.cantidad_disponible * l.coste_unit)).sum

/-- A disposal record carrying only a gain/loss value (test fixture for
the tax-estimator claims; `calcular_irpf_ganancias` reads only
`ganancia_perdida_eur`). -/
def registroGanancia (x : ℚ) : Venta := ⟨0, "btc", Tipo.venta, 0, 0, 0, 0, 0, x, none, []⟩

/-! ### Unfolding lemmas for the consumption loop -/

theorem consumir_nil (r c : ℚ) (t : List (ℚ × Nat × ℚ)) :
    consumir r c t [] = (r, c, t, []) := by
  rw [consumir]

theorem consumir_stop (r c : ℚ) (t : List (ℚ × Nat × ℚ)) (lote : Lote) (resto : List Lote)
    (h : ¬ 0 < r) : consumir r c t (lote :: resto) = (r, c, t, lote :: resto) := by
  rw [consumir, dif_neg h]

theorem consumir_pop (r c : ℚ) (t : List (ℚ × Nat × ℚ)) (lote : Lote) (resto : List Lote)
    (h : 0 < r) (h2 : lote.cantidad_disponible - min r lote.cantidad_disponible ≤ eps) :
    consumir r c t (lote :: resto) =
      consumir (r - min r lote.cantidad_disponible)
        (c + min r lote.cantidad_disponible * lote.coste_unit)
        (t ++ [(min r lote.cantidad_disponible, lote.fecha_compra, lote.coste_unit)]) resto := by
  rw [consumir, dif_pos h, dif_pos h2]

theorem consumir_keep (r c : ℚ) (t : List (ℚ × Nat × ℚ)) (lote : Lote) (resto : List Lote)
    (h : 0 < r) (h2 : ¬ lote.cantidad_disponible - min r lote.cantidad_disponible ≤ eps) :
    consumir r c t (lote :: resto) =
      consumir (r - min r lote.cantidad_disponible)
        (c + min r lote.cantidad_disponible * lote.coste_unit)
        (t ++ [(min r lote.cantidad_disponible, lote.fecha_compra, lote.coste_unit)])
        ({ lote with cantidad_disponible :=
            lote.cantidad_disponible - min r lote.cantidad_disponible } :: resto) := by
  rw [consumir, dif_pos h, dif_neg h2]

/-! ### Step lemmas for the row loop -/

theorem procesarOp_skip (s : Estado) (f : Operacion)
    (h : f.cantidad ≤ 0 ∨ lower f.cripto = "") : procesarOp s f = s := by
  rw [procesarOp, if_pos h]

theorem procesarOp_ingreso (s : Estado) (f : Operacion) (h : f.tipo = Tipo.ingreso) :
    procesarOp s f = s := by
  rw [procesarOp]
  split
  · rfl
  · rw [h]

theorem procesarOp_compra (s : Estado) (f : Operacion) (hf : f.tipo = Tipo.compra)
    (hq : 0 < f.cantidad) (hc : lower f.cripto ≠ "") :
    procesarOp s f =
      { s with
        colas := actualizar s.colas (lower f.cripto)
          (s.colas (lower f.cripto) ++
            [⟨f.cantidad, (f.valor_eur + f.fee_eur) / f.cantidad, f.fecha⟩]) } := by
  rw [procesarOp, if_neg (by push_neg; exact ⟨by linarith, hc⟩), hf]
  simp [ne_of_gt hq]

theorem procesarOp_disposal (s : Estado) (f : Operacion)
    (hf : f.tipo = Tipo.venta ∨ f.tipo = Tipo.donacion)
    (hq : 0 < f.cantidad) (hc : lower f.cripto ≠ "") :
    procesarOp s f =
      { colas := actualizar s.colas (lower f.cripto)
          (consumir f.cantidad 0 [] (s.colas (lower f.cripto))).2.2.2,
        ventas := s.ventas ++
          [⟨f.fecha, lower f.cripto, f.tipo, f.cantidad, f.valor_eur, f.fee_eur,
            f.valor_eur - f.fee_eur,
            (consumir f.cantidad 0 [] (s.colas (lower f.cripto))).2.1,
            f.valor_eur - f.fee_eur -
              (consumir f.cantidad 0 [] (s.colas (lower f.cripto))).2.1,
            if eps < (consumir f.cantidad 0 [] (s.colas (lower f.cripto))).1 then
              some ((consumir f.cantidad 0 [] (s.colas (lower f.cripto))).1, lower f.cripto)
            else none,
            (consumir f.cantidad 0 [] (s.colas (lower f.cripto))).2.2.1⟩] } := by
  rw [procesarOp, if_neg (by push_neg; exact ⟨by linarith, hc⟩)]
  rcases hf with hf | hf <;> rw [hf]

/-! ### Claims -/

/-- Claim C1: FIFO consumption order.  For every single-asset stream of an
acquisition A1 (quantity 2, unit cost 100), an acquisition A2 (quantity 3,
unit cost 200) and a disposal of quantity 4, with strictly increasing
dates, `calcular_fifo` consumes all of A1 and exactly 2 units of A2,
emitting one record with total acquisition cost 2×100 + 2×200 = 600 and a
lot trace listing A1 before A2. -/
theorem C1_fifo_order (c : String) (d1 d2 d3 : Nat) (v1 w1 v2 w2 v w : ℚ)
    (hc : lower c ≠ "") (h12 : d1 < d2) (h23 : d2 < d3)
    (hA1 : v1 + w1 = 200) (hA2 : v2 + w2 = 600) :
    calcular_fifo [⟨d1, Tipo.compra, c, 2, v1, w1⟩, ⟨d2, Tipo.compra, c, 3, v2, w2⟩,
                   ⟨d3, Tipo.venta, c, 4, v, w⟩] =
      [⟨d3, lower c, Tipo.venta, 4, v, w, v - w, 600, v - w - 600, none,
        [(2, d1, 100), (2, d2, 200)]⟩] := by
  have hsort : sortPorFecha [⟨d1, Tipo.compra, c, 2, v1, w1⟩, ⟨d2, Tipo.compra, c, 3, v2, w2⟩,
      (⟨d3, Tipo.venta, c, 4, v, w⟩ : Operacion)] = [⟨d1, Tipo.compra, c, 2, v1, w1⟩,
      ⟨d2, Tipo.compra, c, 3, v2, w2⟩, ⟨d3, Tipo.venta, c, 4, v, w⟩] := by
    apply List.Sorted.insertionSort_eq
    simp [List.sorted_cons]
    omega
  rw [calcular_fifo, calcularFifoFull, hsort]
  rw [List.foldl_cons, procesarOp_compra _ _ rfl (by norm_num) hc]
  rw [List.foldl_cons, procesarOp_compra _ _ rfl (by norm_num) hc]
  rw [List.foldl_cons, procesarOp_disposal _ _ (Or.inl rfl) (by norm_num) hc]
  rw [List.foldl_nil]
  simp [estadoInicial, actualizar]
  rw [hA1, hA2]
  norm_num
  rw [consumir_pop _ _ _ _ _ (by norm_num) (by norm_num [eps, min_def])]
  rw [consumir_keep _ _ _ _ _ (by norm_num [min_def]) (by norm_num [eps, min_def])]
  rw [consumir_stop _ _ _ _ _ (by norm_num [min_def])]
  norm_num [eps, min_def]

/-- Witness for C1 at a concrete input. -/
theorem C1_fifo_order_witness :
    calcular_fifo [⟨0, Tipo.compra, "btc", 2, 200, 0⟩, ⟨1, Tipo.compra, "btc", 3, 600, 0⟩,
                   ⟨2, Tipo.venta, "btc", 4, 1000, 0⟩] =
      [⟨2, lower "btc", Tipo.venta, 4, 1000, 0, 1000 - 0, 600, 1000 - 0 - 600, none,
        [(2, 0, 100), (2, 1, 200)]⟩] :=
  C1_fifo_order "btc" 0 1 2 200 0 600 0 1000 0 (by decide) (by norm_num) (by norm_num)
    (by norm_num) (by norm_num)

/-- Claim C7: malformed transactions (non-positive quantity or empty asset
identifier) are skipped silently: the state, hence every asset queue and
the emitted record list, is left exactly as it was. -/
theorem C7_malformed_dropped (s : Estado) (f : Operacion)
    (h : f.cantidad ≤ 0 ∨ f.cripto = "") : procesarOp s f = s := by
  apply procesarOp_skip
  rcases h with h | h
  · exact Or.inl h
  · exact Or.inr (by rw [h]; rfl)

/-- Witness for C7 at a concrete input. -/
theorem C7_malformed_dropped_witness :
    procesarOp estadoInicial ⟨0, Tipo.compra, "btc", -1, 100, 0⟩ = estadoInicial :=
  C7_malformed_dropped estadoInicial ⟨0, Tipo.compra, "btc", -1, 100, 0⟩
    (Or.inl (by norm_num))

/-- Claim C9: determinism / idempotence.  `calcular_fifo` is a pure
function of its input transaction list (each pass starts from the fresh
`estadoInicial`, and no other state exists in the embedding), so two runs
on the same input produce identical disposal-record lists. -/
theorem C9_deterministic (ops ops' : List Operacion) (h : ops = ops') :
    calcular_fifo ops = calcular_fifo ops' := by
  rw [h]

/-- Claim C4: tiered capital-gains tax.  The tier table is exactly
(6,000 @ 19 %), (44,000 @ 21 %), (150,000 @ 23 %), (unbounded @ 26 %),
consumed in order with `min(remainingGain, tierWidth)` and early stop;
in particular a total gain of exactly 6,000 yields an estimated tax of
1140.00 and a total gain of exactly 6,001 yields 1140.21. -/
theorem C4_tramos_ganancias :
    tramos = [(some 6000, 19 / 100), (some 44000, 21 / 100),
              (some 150000, 23 / 100), (none, 26 / 100)] ∧
    calcular_irpf_ganancias [registroGanancia 6000] = ⟨6000, 1140⟩ ∧
    calcular_irpf_ganancias [registroGanancia 6001] = ⟨6001, 114021 / 100⟩ := by
  refine ⟨by norm_num [tramos], ?_, ?_⟩
  · norm_num [calcular_irpf_ganancias, registroGanancia, aplicarTramos, tramos, round2, round_eq]
  · norm_num [calcular_irpf_ganancias, registroGanancia, aplicarTramos, tramos, round2, round_eq,
      min_def]

/-- Claim C5: a negative total gain yields zero estimated tax and a base
of `round(total, 2)`: the tier loop stops immediately on a non-positive
remaining amount. -/
theorem C5_ganancia_negativa (registros : List Venta)
    (h : ((registros.map (·.ganancia_perdida_eur)).sum) < 0) :
    calcular_irpf_ganancias registros =
      ⟨round2 ((registros.map (·.ganancia_perdida_eur)).sum), 0⟩ := by
  rw [calcular_irpf_ganancias, tramos]
  rw [show aplicarTramos ((registros.map (·.ganancia_perdida_eur)).sum)
      [(some 6000, 19 / 100), (some (50000 - 6000), 21 / 100),
       (some (200000 - 50000), 23 / 100), (none, 26 / 100)] = 0 by
    rw [aplicarTramos, if_pos (le_of_lt h)]]
  rw [show round2 0 = 0 by norm_num [round2, round_eq]]

/-- Witness for C5 at a concrete input (total gain −500). -/
theorem C5_ganancia_negativa_witness :
    (([registroGanancia (-500)].map (·.ganancia_perdida_eur)).sum < 0) ∧
      calcular_irpf_ganancias [registroGanancia (-500)] = ⟨-500, 0⟩ := by
  constructor
  · norm_num [registroGanancia]
  · have h := C5_ganancia_negativa [registroGanancia (-500)] (by norm_num [registroGanancia])
    rw [h]
    norm_num [registroGanancia, round2, round_eq]

/-- Claim C8: the income estimate returns the sum of the EUR values and
`round(total × 0.19, 2)`; the empty set yields total 0 and tax 0, and a
total income of 1000 yields a tax of 190.00. -/
theorem C8_irpf_ingresos :
    (∀ valores : List ℚ,
        calcular_irpf_ingresos valores = ⟨valores.sum, round2 (valores.sum * (19 / 100))⟩) ∧
    calcular_irpf_ingresos [] = ⟨0, 0⟩ ∧
    calcular_irpf_ingresos [1000] = ⟨1000, 190⟩ := by
  refine ⟨fun valores => ?_, ?_, ?_⟩
  · match valores with
    | [] => norm_num [calcular_irpf_ingresos, round2, round_eq]
    | x :: resto => rw [calcular_irpf_ingresos, if_neg (by simp)]
  · norm_num [calcular_irpf_ingresos]
  · norm_num [calcular_irpf_ingresos, round2, round_eq]

/-- Claim C10: case-insensitive asset matching.  The row loop depends on
the asset string only through its lowercasing (so "BTC" and "btc" hit the
same queue), and every emitted disposal record reports the lowercased
asset symbol. -/
theorem C10_case_insensitive :
    (∀ (s : Estado) (f : Operacion) (c' : String), lower c' = lower f.cripto →
        procesarOp s { f with cripto := c' } = procesarOp s f) ∧
    (∀ (s : Estado) (f : Operacion) (v : Venta), v ∈ (procesarOp s f).ventas →
        v ∈ s.ventas ∨ v.cripto = lower f.cripto) := by
  constructor
  · intro s f c' h
    obtain ⟨fe, tp, cr, ca, va, fee⟩ := f
    simp only at h
    simp only [procesarOp]
    rw [h]
  · intro s f v hv
    rw [procesarOp] at hv
    split at hv
    · exact Or.inl hv
    · split at hv
      · exact Or.inl hv
      · simp only [List.mem_append, List.mem_singleton] at hv
        rcases hv with hv | hv
        · exact Or.inl hv
        · subst hv
          exact Or.inr rfl
      · simp only [List.mem_append, List.mem_singleton] at hv
        rcases hv with hv | hv
        · exact Or.inl hv
        · subst hv
          exact Or.inr rfl
      · exact Or.inl hv

/-- Witness for C10: "BTC" is processed exactly like "btc". -/
theorem C10_case_insensitive_witness :
    procesarOp estadoInicial ⟨0, Tipo.compra, "BTC", 1, 100, 0⟩ =
      procesarOp estadoInicial ⟨0, Tipo.compra, "btc", 1, 100, 0⟩ :=
  (C10_case_insensitive).1 estadoInicial ⟨0, Tipo.compra, "btc", 1, 100, 0⟩ "BTC" (by decide)

/-- Witness for C9 at a concrete input. -/
theorem C9_deterministic_witness :
    calcular_fifo [⟨0, Tipo.compra, "btc", 2, 200, 0⟩] =
      calcular_fifo [⟨0, Tipo.compra, "btc", 2, 200, 0⟩] :=
  C9_deterministic [⟨0, Tipo.compra, "btc", 2, 200, 0⟩] [⟨0, Tipo.compra, "btc", 2, 200, 0⟩] rfl

/-- Helper: the total of the empty queue. -/
theorem totalDisponible_nil : totalDisponible [] = 0 := rfl

theorem totalDisponible_cons (l : Lote) (resto : List Lote) :
    totalDisponible (l :: resto) = l.cantidad_disponible + totalDisponible resto := by
  simp [totalDisponible]

theorem costeTotal_nil : costeTotal [] = 0 := rfl

theorem costeTotal_cons (l : Lote) (resto : List Lote) :
    costeTotal (l :: resto) = l.cantidad_disponible * l.coste_unit + costeTotal resto := by
  simp [costeTotal]

theorem totalDisponible_nonneg (cola : List Lote)
    (hpos : ∀ l ∈ cola, 0 < l.cantidad_disponible) : 0 ≤ totalDisponible cola := by
  induction cola with
  | nil => simp [totalDisponible_nil]
  | cons l resto ih =>
    rw [totalDisponible_cons]
    have h1 := hpos l (by simp)
    have h2 := ih (fun x hx => hpos x (List.mem_cons_of_mem _ hx))
    linarith

/-- If the disposal quantity strictly exceeds the queue's total remaining
quantity, the loop consumes every lot, pops all of them, and leaves
`restante = r − totalDisponible cola`. -/
theorem consumir_agota (cola : List Lote) : ∀ (r c : ℚ) (t : List (ℚ × Nat × ℚ)),
    (∀ l ∈ cola, 0 < l.cantidad_disponible) → totalDisponible cola < r →
    consumir r c t cola =
      (r - totalDisponible cola, c + costeTotal cola,
       t ++ cola.map (fun l => (l.cantidad_disponible, l.fecha_compra, l.coste_unit)), []) := by
  induction cola with
  | nil => intro r c t _ _; simp [consumir_nil, totalDisponible_nil, costeTotal_nil]
  | cons lote resto ih =>
    intro r c t hpos hr
    rw [totalDisponible_cons] at hr
    have hlot : 0 < lote.cantidad_disponible := hpos lote (by simp)
    have hresto : 0 ≤ totalDisponible resto :=
      totalDisponible_nonneg resto (fun x hx => hpos x (List.mem_cons_of_mem _ hx))
    have h0 : 0 < r := by linarith
    have hmin : min r lote.cantidad_disponible = lote.cantidad_disponible :=
      min_eq_right (by linarith)
    rw [consumir_pop _ _ _ _ _ h0 (by rw [hmin]; simp [eps])]
    rw [hmin]
    rw [ih (r - lote.cantidad_disponible) _ _
      (fun x hx => hpos x (List.mem_cons_of_mem _ hx)) (by linarith)]
    rw [totalDisponible_cons, costeTotal_cons]
    simp only [Prod.mk.injEq]
    refine ⟨by ring, by ring, by simp, trivial⟩



/-- Claim C2: shortfall handling.  Whenever a disposal or donation's
quantity exceeds the asset queue's total remaining quantity by more than
`eps = 1e-9`, the engine does not fail: it emits exactly one record whose
note carries the unmatched quantity and the (lowercased) asset, whose
total acquisition cost covers only the consumed lots, and whose gain is
`netProceeds − totalCost`.  In particular (second conjunct), disposing
10 units with only 4 units acquired at unit cost 100 yields cost 400,
gain `1000 − 400 = 600` and the shortfall note for the 6 unmatched
units. -/
theorem C2_shortfall :
    (∀ (s : Estado) (f : Operacion),
        (f.tipo = Tipo.venta ∨ f.tipo = Tipo.donacion) →
        lower f.cripto ≠ "" →
        (∀ l ∈ s.colas (lower f.cripto), 0 < l.cantidad_disponible) →
        totalDisponible (s.colas (lower f.cripto)) + eps < f.cantidad →
        (procesarOp s f).ventas = s.ventas ++
          [⟨f.fecha, lower f.cripto, f.tipo, f.cantidad, f.valor_eur, f.fee_eur,
            f.valor_eur - f.fee_eur, costeTotal (s.colas (lower f.cripto)),
            f.valor_eur - f.fee_eur - costeTotal (s.colas (lower f.cripto)),
            some (f.cantidad - totalDisponible (s.colas (lower f.cripto)), lower f.cripto),
            (s.colas (lower f.cripto)).map
              (fun l => (l.cantidad_disponible, l.fecha_compra, l.coste_unit))⟩]) ∧
    calcular_fifo [⟨0, Tipo.compra, "eth", 4, 400, 0⟩, ⟨1, Tipo.venta, "eth", 10, 1000, 0⟩] =
      [⟨1, "eth", Tipo.venta, 10, 1000, 0, 1000, 400, 600, some (6, "eth"), [(4, 0, 100)]⟩] := by
  constructor
  · intro s f htipo hc hpos hshort
    have heps : (0:ℚ) < eps := by norm_num [eps]
    have htot : 0 ≤ totalDisponible (s.colas (lower f.cripto)) :=
      totalDisponible_nonneg _ hpos
    have hq : 0 < f.cantidad := by linarith
    rw [procesarOp_disposal _ _ htipo hq hc]
    rw [consumir_agota _ _ _ _ hpos (by linarith)]
    simp only [zero_add, List.nil_append]
    rw [if_pos (by linarith)]
  · have hl : lower "eth" = "eth" := by decide
    have hsort : sortPorFecha [⟨0, Tipo.compra, "eth", 4, 400, 0⟩,
        (⟨1, Tipo.venta, "eth", 10, 1000, 0⟩ : Operacion)] =
        [⟨0, Tipo.compra, "eth", 4, 400, 0⟩, ⟨1, Tipo.venta, "eth", 10, 1000, 0⟩] := by
      apply List.Sorted.insertionSort_eq
      simp [List.sorted_cons]
    rw [calcular_fifo, calcularFifoFull, hsort]
    rw [List.foldl_cons, procesarOp_compra _ _ rfl (by norm_num) (by decide)]
    rw [List.foldl_cons, procesarOp_disposal _ _ (Or.inl rfl) (by norm_num) (by decide)]
    rw [List.foldl_nil]
    simp [estadoInicial, actualizar, hl]
    norm_num
    rw [consumir_pop _ _ _ _ _ (by norm_num) (by norm_num [eps, min_def])]
    rw [consumir_nil]
    norm_num [eps, min_def]


/-- Witness for C2: a donation against an empty queue. -/
theorem C2_shortfall_witness :
    (totalDisponible (estadoInicial.colas (lower "btc")) + eps < 1) ∧
    (procesarOp estadoInicial ⟨5, Tipo.donacion, "btc", 1, 50, 2⟩).ventas =
      [⟨5, "btc", Tipo.donacion, 1, 50, 2, 48, 0, 48, some (1, "btc"), []⟩] := by
  have hl : lower "btc" = "btc" := by decide
  constructor
  · norm_num [estadoInicial, totalDisponible, eps]
  · have h := (C2_shortfall).1 estadoInicial ⟨5, Tipo.donacion, "btc", 1, 50, 2⟩ (Or.inr rfl)
      (by decide) (by simp [estadoInicial]) (by norm_num [estadoInicial, totalDisponible, eps])
    simp only [estadoInicial, hl] at h
    norm_num [costeTotal, totalDisponible] at h
    exact h

/-- Helper: with no remaining quantity the loop leaves the queue as is. -/
theorem consumir_zero_stop (r c : ℚ) (t : List (ℚ × Nat × ℚ)) (cola : List Lote)
    (h : ¬ 0 < r) : (consumir r c t cola).2.2.2 = cola := by
  match cola with
  | [] => rw [consumir_nil]
  | lote :: resto => rw [consumir_stop _ _ _ _ _ h]

/-- The consumption loop only ever keeps lots with positive remaining
quantity if all lots were positive to begin with: a visited lot is kept
only when its new remaining quantity exceeds `eps > 0`. -/
theorem consumir_pos (cola : List Lote) : ∀ (r c : ℚ) (t : List (ℚ × Nat × ℚ)),
    (∀ l ∈ cola, 0 < l.cantidad_disponible) →
    ∀ l ∈ (consumir r c t cola).2.2.2, 0 < l.cantidad_disponible := by
  induction cola with
  | nil => intro r c t _ l hl; rw [consumir_nil] at hl; simp at hl
  | cons lote resto ih =>
    intro r c t hpos l hl
    by_cases h : 0 < r
    · by_cases h2 : lote.cantidad_disponible - min r lote.cantidad_disponible ≤ eps
      · rw [consumir_pop _ _ _ _ _ h h2] at hl
        exact ih _ _ _ (fun x hx => hpos x (List.mem_cons_of_mem _ hx)) l hl
      · rw [consumir_keep _ _ _ _ _ h h2] at hl
        have hmin : min r lote.cantidad_disponible = r := by
          rcases min_choice r lote.cantidad_disponible with h3 | h3
          · exact h3
          · exfalso; exact h2 (by rw [h3]; simp [eps])
        rw [hmin, sub_self, consumir_zero_stop _ _ _ _ (lt_irrefl 0)] at hl
        rcases List.mem_cons.mp hl with hl | hl
        · subst hl
          have : eps < lote.cantidad_disponible - r := by
            rw [hmin] at h2; linarith [not_le.mp h2]
          have heps : (0:ℚ) < eps := by norm_num [eps]
          simp only []
          linarith
        · exact hpos l (List.mem_cons_of_mem _ hl)
    · rw [consumir_stop _ _ _ _ _ h] at hl
      exact hpos l hl

/-- One row step preserves positivity of all queued lots. -/
theorem procesarOp_pos (s : Estado) (f : Operacion)
    (hpos : ∀ c, ∀ l ∈ s.colas c, 0 < l.cantidad_disponible) :
    ∀ c, ∀ l ∈ (procesarOp s f).colas c, 0 < l.cantidad_disponible := by
  intro c l hl
  rw [procesarOp] at hl
  split at hl
  · exact hpos c l hl
  next hguard =>
    push_neg at hguard
    split at hl
    · simp only [actualizar] at hl
      split at hl
      · rcases List.mem_append.mp hl with hl | hl
        · exact hpos _ l hl
        · rw [List.mem_singleton] at hl
          subst hl
          exact hguard.1
      · exact hpos c l hl
    · simp only [actualizar] at hl
      split at hl
      · exact consumir_pos _ _ _ _ (hpos _) l hl
      · exact hpos c l hl
    · simp only [actualizar] at hl
      split at hl
      · exact consumir_pos _ _ _ _ (hpos _) l hl
      · exact hpos c l hl
    · exact hpos c l hl

/-- Helper: the whole pass preserves positivity of all queued lots. -/
theorem foldl_pos (ops : List Operacion) : ∀ (s : Estado),
    (∀ c, ∀ l ∈ s.colas c, 0 < l.cantidad_disponible) →
    ∀ c, ∀ l ∈ (List.foldl procesarOp s ops).colas c, 0 < l.cantidad_disponible := by
  induction ops with
  | nil => intro s hpos; exact hpos
  | cons f resto ih =>
    intro s hpos
    rw [List.foldl_cons]
    exact ih _ (procesarOp_pos s f hpos)

/-- Claim C6 (amended): after a full pass every lot still present in
every asset queue has `remainingQuantity > 0` (an acquisition may create
a lot with quantity in `(0, 1e-9]`, so `> 1e-9` does not hold for all
lots); and a lot visited by the disposal loop whose remaining quantity
falls to `≤ 1e-9` is removed immediately, so disposing exactly a lot's
remaining quantity removes that lot — the queue shrinks by one with no
residual entry. -/
theorem C6_amended :
    (∀ (ops : List Operacion) (c : String),
        ∀ l ∈ (calcularFifoFull ops).colas c, 0 < l.cantidad_disponible) ∧
    (∀ (r coste : ℚ) (t : List (ℚ × Nat × ℚ)) (lote : Lote) (resto : List Lote),
        lote.cantidad_disponible = r → 0 < r →
        consumir r coste t (lote :: resto) =
          (0, coste + r * lote.coste_unit,
           t ++ [(r, lote.fecha_compra, lote.coste_unit)], resto)) := by
  constructor
  · intro ops c l hl
    rw [calcularFifoFull] at hl
    exact foldl_pos _ estadoInicial (by simp [estadoInicial]) c l hl
  · intro r coste t lote resto hq hr
    rw [consumir_pop _ _ _ _ _ hr (by rw [hq, min_self]; simp [eps])]
    rw [hq, min_self, sub_self]
    match resto with
    | [] => rw [consumir_nil]
    | l2 :: rs => rw [consumir_stop _ _ _ _ _ (lt_irrefl 0)]

/-- Witness for C6 (amended) at concrete inputs. -/
theorem C6_amended_witness :
    (0:ℚ) < 2 ∧
    consumir 5 0 [] [⟨5, 7, 3⟩] = (0, 0 + 5 * 7, [] ++ [(5, 3, 7)], []) :=
  ⟨(C6_amended).1 [⟨0, Tipo.compra, "btc", 2, 100, 0⟩] "btc" ⟨2, 50, 0⟩ (by
      have hl : lower "btc" = "btc" := by decide
      rw [calcularFifoFull,
        show sortPorFecha [(⟨0, Tipo.compra, "btc", 2, 100, 0⟩ : Operacion)] =
          [⟨0, Tipo.compra, "btc", 2, 100, 0⟩] from rfl,
        List.foldl_cons, procesarOp_compra _ _ rfl (by norm_num) (by decide), List.foldl_nil]
      simp [estadoInicial, actualizar, hl]
      norm_num),
   (C6_amended).2 5 0 [] ⟨5, 7, 3⟩ [] rfl (by norm_num)⟩

/-- Counterexample to C6 as stated: an acquisition of quantity
`1e-10 > 0` passes the malformed-row filter and creates a lot whose
remaining quantity `1e-10` is not greater than `1e-9`. -/
theorem C6_counterexample :
    (calcularFifoFull [⟨0, Tipo.compra, "btc", 1 / 10000000000, 1, 0⟩]).colas "btc" =
      [⟨1 / 10000000000, 10000000000, 0⟩] ∧ (1:ℚ) / 10000000000 ≤ eps := by
  constructor
  · have hl : lower "btc" = "btc" := by decide
    rw [calcularFifoFull]
    rw [show sortPorFecha [(⟨0, Tipo.compra, "btc", 1 / 10000000000, 1, 0⟩ : Operacion)] =
      [⟨0, Tipo.compra, "btc", 1 / 10000000000, 1, 0⟩] from rfl]
    rw [List.foldl_cons, procesarOp_compra _ _ rfl (by norm_num) (by decide), List.foldl_nil]
    simp [estadoInicial, actualizar, hl]
  · norm_num [eps]

end TaxCalculator
